import Mathlib

/-!
# Verification of the moon task-orchestrator core

Shallow embedding of the two core source files of the repository:

* `src/legacy/core/action-pipeline/src/actions/run_task.rs` — the per-target
  runner `run_task`: copies the allow-failure policy onto the Action, sets the
  `Passthrough` state early for persistent tasks, runs the task's operations
  through an (external) task runner, derives the final status and flakiness,
  and warns on allowed failures.
* `src/crates/cli/src/commands/run.rs` — the `run` command: touched-file
  retrieval per classification, affected filtering, dependency-graph
  resolution, dispatch to the task runner, and result aggregation
  (`render_result_stats`).

External collaborators (VCS provider, dependency graph internals, the actual
task runner) are parameters of the embedding.  Library functions called by the
source but not part of this repository snapshot (`operations.is_flaky()`,
`operations.get_final_status()`, the status enumerations) are modelled from
the specification, as marked on each definition.
-/

namespace Moon

/-- Target identifier: a `(project_id, task_id)` pair (spec §3). -/
structure Target where
  project_id : String
  task_id : String
deriving DecidableEq, Repr

/-- Per-target state held in the Run Context (spec §3, `TargetState`). -/
inductive TargetState where
  | pending
  | running
  | passed
  | failed
  | passthrough
  | skipped
deriving DecidableEq, Repr

/-- Modelled from the spec: the status of an Action or of one Operation
(`TaskResultStatus ∈ \x7bPassed, Failed, Invalid, Skipped\x7d`, spec §3); the
enumeration lives in the external `moon_action` crate, absent from `src/`. -/
inductive ActionStatus where
  | passed
  | failed
  | invalid
  | skipped
deriving DecidableEq, Repr

/-- One attempt (or retry) of the task's underlying work (spec §3,
`Operation`); `work` identifies the step, so that two operations are attempts
of "equivalent work" exactly when their `work` fields agree. -/
structure Operation where
  work : String
  status : ActionStatus
deriving DecidableEq, Repr

/-- Does the list contain a passing attempt of work `w`?  Helper for
`is_flaky`. -/
def has_pass_for (w : String) : List Operation → Bool
  | [] => false
  | op :: rest => (op.work == w && op.status == ActionStatus.passed) || has_pass_for w rest

/-- Modelled from the spec: `operations.is_flaky()` (external crate, absent
from `src/`) — "flaky = true iff the sequence contains at least one failed
attempt followed by a later passing attempt for equivalent work" (spec §4.3). -/
def is_flaky : List Operation → Bool
  | [] => false
  | op :: rest =>
      (op.status == ActionStatus.failed && has_pass_for op.work rest) || is_flaky rest

/-- Modelled from the spec: `operations.get_final_status()` (external crate,
absent from `src/`) — "final status is the status of the last operation unless
all operations are skipped, in which case status is `Skipped`" (spec §4.3). -/
def get_final_status (ops : List Operation) : ActionStatus :=
  if ops.all (fun op => op.status == ActionStatus.skipped) then ActionStatus.skipped
  else
    match ops.getLast? with
    | some op => op.status
    | none => ActionStatus.skipped

/-- Task options consumed by the runner (`task.options.allow_failure`). -/
structure TaskOptions where
  allow_failure : Bool
deriving DecidableEq, Repr

/-- A task: its target, its options, and the persistence flag
(`task.is_persistent()`). -/
structure Task where
  target : Target
  options : TaskOptions
  is_persistent : Bool
deriving DecidableEq, Repr

/-- A project: lookup of tasks by task id (`project.get_task`), failing when
the id is absent. -/
structure Project where
  tasks : List (String × Task)
deriving DecidableEq, Repr

/-- `project.get_task(task_id)`: `none` models the `UnknownTask` error. -/
def Project.get_task (p : Project) (id : String) : Option Task :=
  p.tasks.lookup id

/-- The per-target execution record built by `run_task` (spec §3, `Action`). -/
structure Action where
  status : ActionStatus
  flaky : Bool
  allow_failure : Bool
  operations : List Operation
deriving DecidableEq, Repr

/-- `action.has_failed()`: the final status is `Failed`. -/
def Action.has_failed (a : Action) : Bool :=
  a.status == ActionStatus.failed

/-- Observable effects of one `run_task` call, in program order:
writes to the shared Run Context state map, the hand-off to the external task
runner (after which operations may start), and the allowed-failure warning. -/
inductive RunEvent where
  | setTargetState (target : Target) (state : TargetState)
  | runnerInvoked
  | warnAllowedFailure (target : Target)
deriving DecidableEq, Repr

/-- Is this event a write to the Run Context target-state map? -/
def RunEvent.isStateWrite : RunEvent → Bool
  | RunEvent.setTargetState _ _ => true
  | _ => false

/-- Errors `run_task` can return: the `get_task` failure, or an error bubbled
up from the external task runner (`TaskRunner::new(..)?.run(..)?`). -/
inductive RunTaskError where
  | unknownTask
  | runnerError
deriving DecidableEq, Repr

/-- Result of one `run_task` call: the returned value, the final state of the
`&mut Action` (mutations persist even when an error is returned), and the
ordered trace of observable effects. -/
structure RunTaskResult where
  ret : Except RunTaskError ActionStatus
  action : Action
  events : List RunEvent
deriving Repr

/-- Shallow embedding of `run_task`
(`src/legacy/core/action-pipeline/src/actions/run_task.rs`).  The external
task runner is abstracted as its outcome `runnerResult`: either an error
bubbled up the stack or the finished operation list. -/
def run_task (project : Project) (target : Target) (action : Action)
    (runnerResult : Except Unit (List Operation)) : RunTaskResult :=
  match project.get_task target.task_id with
  | none => { ret := Except.error RunTaskError.unknownTask, action := action, events := [] }
  | some task =>
      -- "Must be set before running the task in case it fails and
      --  an error is bubbled up the stack"
      let action1 := { action with allow_failure := task.options.allow_failure }
      -- "If the task is persistent, set the status early since it never finishes"
      let stateEvents :=
        if task.is_persistent then
          [RunEvent.setTargetState task.target TargetState.passthrough]
        else []
      match runnerResult with
      | Except.error _ =>
          { ret := Except.error RunTaskError.runnerError
            action := action1
            events := stateEvents ++ [RunEvent.runnerInvoked] }
      | Except.ok ops =>
          let action2 :=
            { action1 with
                flaky := is_flaky ops
                status := get_final_status ops
                operations := ops }
          let warnEvents :=
            if action2.has_failed && action2.allow_failure then
              [RunEvent.warnAllowedFailure task.target]
            else []
          { ret := Except.ok action2.status
            action := action2
            events := stateEvents ++ [RunEvent.runnerInvoked] ++ warnEvents }

/-- The requested change classification (`RunStatus` in
`src/crates/cli/src/commands/run.rs`). -/
inductive RunStatus where
  | added
  | all
  | deleted
  | modified
  | staged
  | unstaged
  | untracked
deriving DecidableEq, Repr

/-- Options of the `run` command (`RunOptions`). -/
structure RunOptions where
  affected : Bool
  status : RunStatus
deriving DecidableEq, Repr

/-- The per-classification file lists returned by `vcs.get_touched_files()`:
repository-relative paths, one field per classification (external VCS
collaborator; the fields are those the source matches on). -/
structure TouchedFiles where
  added : List String
  all : List String
  deleted : List String
  modified : List String
  staged : List String
  unstaged : List String
  untracked : List String
deriving DecidableEq, Repr

/-- The `match status` selection inside `get_touched_files`. -/
def TouchedFiles.select (tf : TouchedFiles) : RunStatus → List String
  | RunStatus.added => tf.added
  | RunStatus.all => tf.all
  | RunStatus.deleted => tf.deleted
  | RunStatus.modified => tf.modified
  | RunStatus.staged => tf.staged
  | RunStatus.unstaged => tf.unstaged
  | RunStatus.untracked => tf.untracked

/-- `workspace.root.join(file)`: path join of the workspace root and a
repository-relative path. -/
def joinPath (root file : String) : String :=
  root ++ "/" ++ file

/-- Shallow embedding of `get_touched_files`: selects the requested
classification from the VCS provider's answer and joins the workspace root
onto every path (the `HashSet` is modelled as a list used up to membership).
A provider failure propagates. -/
def get_touched_files (root : String) (status : RunStatus)
    (vcsResult : Except Unit TouchedFiles) : Except Unit (List String) :=
  match vcsResult with
  | Except.error e => Except.error e
  | Except.ok tf => Except.ok ((tf.select status).map (joinPath root))

/-- Status of one task result as consumed by `render_result_stats`
(`TaskResultStatus`; the enumeration lives in the external `moon_workspace`
crate — the four variants are those of the spec's data model, §3; the source's
catch-all arm ignores every status other than the first three). -/
inductive TaskResultStatus where
  | passed
  | failed
  | invalid
  | skipped
deriving DecidableEq, Repr

/-- One entry of the results sequence (`TaskResult`). -/
structure TaskResult where
  status : TaskResultStatus
deriving DecidableEq, Repr

/-- The three counters accumulated by `render_result_stats`. -/
structure ResultStats where
  pass_count : Nat
  fail_count : Nat
  invalid_count : Nat
deriving DecidableEq, Repr

/-- One step of the counting loop of `render_result_stats`. -/
def tallyStep (s : ResultStats) (r : TaskResult) : ResultStats :=
  match r.status with
  | TaskResultStatus.passed => { s with pass_count := s.pass_count + 1 }
  | TaskResultStatus.failed => { s with fail_count := s.fail_count + 1 }
  | TaskResultStatus.invalid => { s with invalid_count := s.invalid_count + 1 }
  | _ => s

/-- The counting loop of `render_result_stats` over the results sequence. -/
def tally (results : List TaskResult) : ResultStats :=
  results.foldl tallyStep { pass_count := 0, fail_count := 0, invalid_count := 0 }

/-- The `counts_message` vector of `render_result_stats`: one entry per
non-zero counter (terminal colouring is external rendering and is omitted). -/
def counts_message (s : ResultStats) : List String :=
  (if s.pass_count > 0 then [toString s.pass_count ++ " completed"] else []) ++
  (if s.fail_count > 0 then [toString s.fail_count ++ " failed"] else []) ++
  (if s.invalid_count > 0 then [toString s.invalid_count ++ " invalid"] else [])

/-- Shallow embedding of `render_result_stats`: the aggregated counters and
the joined counts line written to the terminal (`counts_message.join(", ")`). -/
def render_result_stats (results : List TaskResult) : ResultStats × String :=
  let s := tally results
  (s, String.intercalate ", " (counts_message s))

/-- Fatal dependency-graph construction errors
(`UnknownTarget`/`UnknownTask`, `CyclicDependency`; spec §7). -/
inductive GraphError where
  | unknownTarget
  | unknownTask
  | cyclicDependency
deriving DecidableEq, Repr

/-- Errors the `run` command can return (each `?` site in the source). -/
inductive RunError where
  | vcsFailure
  | graph (e : GraphError)
  | runnerFailure
deriving DecidableEq, Repr

/-- The external collaborators of one `run` invocation: the VCS provider's
answer, the dependency graph's two resolution entry points
(`run_target_if_touched` receives the absolute touched paths), and the task
runner's outcome. -/
structure RunEnv where
  vcs : Except Unit TouchedFiles
  run_target_if_touched : String → List String → Except GraphError (Option Nat)
  run_target : String → Except GraphError Nat
  runner_results : Except Unit (List TaskResult)

/-- Observable outcome of one `run` invocation: the returned value (results on
success), whether the VCS provider was consulted, whether the task runner was
invoked, and the targets reported as not affected. -/
structure RunOutcome where
  ret : Except RunError (List TaskResult)
  vcs_consulted : Bool
  runner_invoked : Bool
  unaffected : List String

/-- The affected-filtering loop of `run`: calls `run_target_if_touched` on
each requested target in order, propagating the first graph error, and
collects the targets for which it returned `None`. -/
def collect_unaffected (resolve : String → Except GraphError (Option Nat)) :
    List String → Except GraphError (List String)
  | [] => Except.ok []
  | t :: rest =>
      match resolve t with
      | Except.error e => Except.error e
      | Except.ok none =>
          match collect_unaffected resolve rest with
          | Except.error e => Except.error e
          | Except.ok l => Except.ok (t :: l)
      | Except.ok (some _) => collect_unaffected resolve rest

/-- The non-affected resolution loop of `run`: calls `run_target` on each
requested target in order, propagating the first graph error. -/
def resolve_all (resolve : String → Except GraphError Nat) :
    List String → Except GraphError Unit
  | [] => Except.ok ()
  | t :: rest =>
      match resolve t with
      | Except.error e => Except.error e
      | Except.ok _ => resolve_all resolve rest

/-- Shallow embedding of the `run` command
(`src/crates/cli/src/commands/run.rs`).  The `HashSet` of unaffected targets
is modelled by deduplicating the collected list, matching the set's
cardinality test `unaffected_targets.len() == targets.len()`. -/
def run (targets : List String) (options : RunOptions) (root : String)
    (env : RunEnv) : RunOutcome :=
  if options.affected then
    match get_touched_files root options.status env.vcs with
    | Except.error _ =>
        { ret := Except.error RunError.vcsFailure
          vcs_consulted := true, runner_invoked := false, unaffected := [] }
    | Except.ok touched_files =>
        match collect_unaffected (fun t => env.run_target_if_touched t touched_files) targets with
        | Except.error e =>
            { ret := Except.error (RunError.graph e)
              vcs_consulted := true, runner_invoked := false, unaffected := [] }
        | Except.ok unaff =>
            let unaffected_targets := unaff.dedup
            -- "Nothing to run, so abort early"
            if unaffected_targets.length = targets.length then
              { ret := Except.ok []
                vcs_consulted := true, runner_invoked := false
                unaffected := unaffected_targets }
            else
              match env.runner_results with
              | Except.error _ =>
                  { ret := Except.error RunError.runnerFailure
                    vcs_consulted := true, runner_invoked := true
                    unaffected := unaffected_targets }
              | Except.ok results =>
                  { ret := Except.ok results
                    vcs_consulted := true, runner_invoked := true
                    unaffected := unaffected_targets }
  else
    match resolve_all env.run_target targets with
    | Except.error e =>
        { ret := Except.error (RunError.graph e)
          vcs_consulted := false, runner_invoked := false, unaffected := [] }
    | Except.ok _ =>
        match env.runner_results with
        | Except.error _ =>
            { ret := Except.error RunError.runnerFailure
              vcs_consulted := false, runner_invoked := true, unaffected := [] }
        | Except.ok results =>
            { ret := Except.ok results
              vcs_consulted := false, runner_invoked := true, unaffected := [] }

/-! ## Helper lemmas about operations and `run_task` -/

/-- `has_pass_for` finds exactly the lists containing a passing attempt of the
given work. -/
theorem has_pass_for_iff (w : String) (l : List Operation) :
    has_pass_for w l = true ↔
      ∃ l2 b l3, l = l2 ++ b :: l3 ∧ b.work = w ∧ b.status = ActionStatus.passed := by
  induction l with
  | nil =>
      constructor
      · intro h
        simp [has_pass_for] at h
      · rintro ⟨l2, b, l3, heq, -, -⟩
        exact absurd heq (by simp)
  | cons op rest ih =>
      simp only [has_pass_for, Bool.or_eq_true, Bool.and_eq_true, beq_iff_eq, ih]
      constructor
      · rintro (⟨hw, hs⟩ | ⟨l2, b, l3, heq, hw, hs⟩)
        · exact ⟨[], op, rest, rfl, hw, hs⟩
        · exact ⟨op :: l2, b, l3, by rw [heq, List.cons_append], hw, hs⟩
      · rintro ⟨l2, b, l3, heq, hw, hs⟩
        cases l2 with
        | nil =>
            simp only [List.nil_append] at heq
            injection heq with h1 h2
            subst h1
            exact Or.inl ⟨hw, hs⟩
        | cons c l2 =>
            rw [List.cons_append] at heq
            injection heq with h1 h2
            subst h1
            exact Or.inr ⟨l2, b, l3, h2, hw, hs⟩

/-- `is_flaky` holds exactly for sequences containing a failed attempt
followed by a later passing attempt of the same work. -/
theorem is_flaky_iff (ops : List Operation) :
    is_flaky ops = true ↔
      ∃ l1 a l2 b l3, ops = l1 ++ a :: l2 ++ b :: l3 ∧
        a.status = ActionStatus.failed ∧ b.status = ActionStatus.passed ∧
        b.work = a.work := by
  induction ops with
  | nil =>
      constructor
      · intro h
        simp [is_flaky] at h
      · rintro ⟨l1, a, l2, b, l3, heq, -, -, -⟩
        exact absurd heq (by simp)
  | cons op rest ih =>
      simp only [is_flaky, Bool.or_eq_true, Bool.and_eq_true, beq_iff_eq, ih,
        has_pass_for_iff]
      constructor
      · rintro (⟨hf, l2, b, l3, heq, hw, hs⟩ | ⟨l1, a, l2, b, l3, heq, hf, hs, hw⟩)
        · exact ⟨[], op, l2, b, l3, by rw [heq]; rfl, hf, hs, hw⟩
        · exact ⟨op :: l1, a, l2, b, l3, by rw [heq]; rfl, hf, hs, hw⟩
      · rintro ⟨l1, a, l2, b, l3, heq, hf, hs, hw⟩
        cases l1 with
        | nil =>
            simp only [List.nil_append] at heq
            injection heq with h1 h2
            subst h1
            exact Or.inl ⟨hf, l2, b, l3, h2, hw, hs⟩
        | cons c l1 =>
            rw [List.cons_append] at heq
            injection heq with h1 h2
            subst h1
            exact Or.inr ⟨l1, a, l2, b, l3, h2, hf, hs, hw⟩

/-- When every operation is skipped, the final status is `Skipped`. -/
theorem get_final_status_of_all_skipped (ops : List Operation)
    (h : ∀ op ∈ ops, op.status = ActionStatus.skipped) :
    get_final_status ops = ActionStatus.skipped := by
  unfold get_final_status
  rw [if_pos]
  exact List.all_eq_true.mpr fun op hop => beq_iff_eq.mpr (h op hop)

/-- When not every operation is skipped, the final status is the status of
the last operation. -/
theorem get_final_status_of_not_all_skipped (ops : List Operation)
    (hne : ops ≠ []) (h : ¬ ∀ op ∈ ops, op.status = ActionStatus.skipped) :
    get_final_status ops = (ops.getLast hne).status := by
  unfold get_final_status
  rw [if_neg, List.getLast?_eq_getLast_of_ne_nil hne]
  intro hall
  exact h fun op hop => beq_iff_eq.mp (List.all_eq_true.mp hall op hop)

/-- The final `Action` of a `run_task` call that reached the end of the
operation sequence. -/
theorem run_task_ok_action (project : Project) (target : Target) (action : Action)
    (task : Task) (ops : List Operation)
    (h : project.get_task target.task_id = some task) :
    (run_task project target action (Except.ok ops)).action =
      { status := get_final_status ops
        flaky := is_flaky ops
        allow_failure := task.options.allow_failure
        operations := ops } := by
  simp [run_task, h]

/-- The final `Action` of a `run_task` call whose runner bubbled up an
error: only the allow-failure copy has happened. -/
theorem run_task_error_action (project : Project) (target : Target) (action : Action)
    (task : Task) (e : Unit) (h : project.get_task target.task_id = some task) :
    (run_task project target action (Except.error e)).action =
      { action with allow_failure := task.options.allow_failure } := by
  simp [run_task, h]

/-- Event-trace shape of `run_task` when the task exists: an optional early
`Passthrough` write (persistent tasks only), the runner hand-off, then a tail
containing no state write. -/
theorem run_task_events_eq (project : Project) (target : Target) (action : Action)
    (task : Task) (rr : Except Unit (List Operation))
    (h : project.get_task target.task_id = some task) :
    ∃ w, (∀ e ∈ w, e.isStateWrite = false) ∧
      (run_task project target action rr).events =
        (if task.is_persistent then
          [RunEvent.setTargetState task.target TargetState.passthrough]
        else []) ++ RunEvent.runnerInvoked :: w := by
  cases rr with
  | error e =>
      refine ⟨[], by simp, ?_⟩
      simp [run_task, h]
  | ok ops =>
      refine ⟨if (get_final_status ops == ActionStatus.failed) &&
                task.options.allow_failure then
                [RunEvent.warnAllowedFailure task.target] else [], ?_, ?_⟩
      · intro e he
        rcases hc : (get_final_status ops == ActionStatus.failed) &&
            task.options.allow_failure with - | -
        · rw [hc] at he
          simp at he
        · rw [hc] at he
          simp at he
          subst he
          rfl
      · simp [run_task, h, Action.has_failed]

/-- `run_task` on an unknown task produces no events. -/
theorem run_task_events_of_unknown (project : Project) (target : Target)
    (action : Action) (rr : Except Unit (List Operation))
    (h : project.get_task target.task_id = none) :
    (run_task project target action rr).events = [] := by
  simp [run_task, h]

/-! ## Claim theorems about `run_task` -/

/-- The `[Fail, Fail, Pass]` operation sequence of spec §8.5. -/
def flakySeq : List Operation :=
  [⟨"build", ActionStatus.failed⟩, ⟨"build", ActionStatus.failed⟩,
   ⟨"build", ActionStatus.passed⟩]

/-- The `[Fail, Fail]` operation sequence of spec §8.5. -/
def failSeq : List Operation :=
  [⟨"build", ActionStatus.failed⟩, ⟨"build", ActionStatus.failed⟩]

/-- **C1.** For every target run, the Action's `flaky` flag is true iff the
operation sequence contains a failed attempt followed by a later passing
attempt of equivalent work; the final status is the status of the last
operation unless all operations are skipped, in which case it is `Skipped`;
the sequence `[Fail, Fail, Pass]` yields `flaky = true` and status `Passed`,
and `[Fail, Fail]` yields `flaky = false` and status `Failed`. -/
theorem run_task_flaky_and_final_status
    (project : Project) (target : Target) (action : Action) (task : Task)
    (ops : List Operation) (h : project.get_task target.task_id = some task) :
    ((run_task project target action (Except.ok ops)).action.flaky = true ↔
      ∃ l1 a l2 b l3, ops = l1 ++ a :: l2 ++ b :: l3 ∧
        a.status = ActionStatus.failed ∧ b.status = ActionStatus.passed ∧
        b.work = a.work) ∧
    ((∀ op ∈ ops, op.status = ActionStatus.skipped) →
      (run_task project target action (Except.ok ops)).action.status =
        ActionStatus.skipped) ∧
    (∀ (hne : ops ≠ []), (¬ ∀ op ∈ ops, op.status = ActionStatus.skipped) →
      (run_task project target action (Except.ok ops)).action.status =
        (ops.getLast hne).status) ∧
    (run_task project target action (Except.ok flakySeq)).action.flaky = true ∧
    (run_task project target action (Except.ok flakySeq)).action.status =
      ActionStatus.passed ∧
    (run_task project target action (Except.ok failSeq)).action.flaky = false ∧
    (run_task project target action (Except.ok failSeq)).action.status =
      ActionStatus.failed := by
  rw [run_task_ok_action project target action task ops h,
    run_task_ok_action project target action task flakySeq h,
    run_task_ok_action project target action task failSeq h]
  refine ⟨is_flaky_iff ops, ?_, ?_,
    show is_flaky flakySeq = true by decide,
    show get_final_status flakySeq = ActionStatus.passed by decide,
    show is_flaky failSeq = false by decide,
    show get_final_status failSeq = ActionStatus.failed by decide⟩
  · exact get_final_status_of_all_skipped ops
  · exact get_final_status_of_not_all_skipped ops

/-- Concrete target used to instantiate the `run_task` theorems. -/
def exTarget : Target := ⟨"app", "build"⟩

/-- Concrete non-persistent task that does not allow failures. -/
def exTask : Task :=
  { target := exTarget, options := { allow_failure := false }, is_persistent := false }

/-- Concrete project owning `exTask` under id `"build"`. -/
def exProject : Project := { tasks := [("build", exTask)] }

/-- Blank action record handed to `run_task`, as the pipeline creates it. -/
def exAction : Action :=
  { status := ActionStatus.skipped, flaky := false, allow_failure := false,
    operations := [] }

/-- Witness for C1 at a concrete project, task and operation sequence. -/
theorem run_task_flaky_and_final_status_witness :
    (run_task exProject exTarget exAction (Except.ok flakySeq)).action.flaky = true ∧
    (run_task exProject exTarget exAction (Except.ok flakySeq)).action.status =
      ActionStatus.passed := by
  have h := run_task_flaky_and_final_status exProject exTarget exAction exTask []
    (by decide)
  exact ⟨h.2.2.2.1, h.2.2.2.2.1⟩

/-- **C3.** For a persistent task, `run_task` writes `Passthrough` for the
task's target as its very first observable effect, strictly before the runner
hand-off (after which operations may start), and no state write other than
that first one occurs anywhere in the call. -/
theorem run_task_persistent_passthrough_first
    (project : Project) (target : Target) (action : Action) (task : Task)
    (rr : Except Unit (List Operation))
    (h : project.get_task target.task_id = some task)
    (hp : task.is_persistent = true) :
    (run_task project target action rr).events.head? =
      some (RunEvent.setTargetState task.target TargetState.passthrough) ∧
    (run_task project target action rr).events.get? 1 =
      some RunEvent.runnerInvoked ∧
    ∀ k tgt st, (run_task project target action rr).events.get? k =
      some (RunEvent.setTargetState tgt st) → k = 0 := by
  obtain ⟨w, hw, hev⟩ := run_task_events_eq project target action task rr h
  rw [hp, if_pos rfl, List.cons_append, List.nil_append] at hev
  refine ⟨by rw [hev]; rfl, by rw [hev]; rfl, ?_⟩
  intro k tgt st hk
  rw [hev] at hk
  match k with
  | 0 => rfl
  | 1 => simp [List.get?] at hk
  | Nat.succ (Nat.succ n) =>
      have hmem : RunEvent.setTargetState tgt st ∈ w := List.get?_mem hk
      have hfalse := hw _ hmem
      simp [RunEvent.isStateWrite] at hfalse

/-- Concrete persistent task (a dev server that never finishes). -/
def exTaskPersistent : Task :=
  { target := ⟨"app", "serve"⟩, options := { allow_failure := false },
    is_persistent := true }

/-- Concrete project owning `exTaskPersistent` under id `"serve"`. -/
def exProjectPersistent : Project := { tasks := [("serve", exTaskPersistent)] }

/-- Witness for C3 at a concrete persistent task. -/
theorem run_task_persistent_passthrough_first_witness :
    (run_task exProjectPersistent ⟨"app", "serve"⟩ exAction
        (Except.ok [])).events.head? =
      some (RunEvent.setTargetState ⟨"app", "serve"⟩ TargetState.passthrough) := by
  exact (run_task_persistent_passthrough_first exProjectPersistent ⟨"app", "serve"⟩
    exAction exTaskPersistent (Except.ok []) (by decide) rfl).1

/-- **C4.** When the final status is `Failed` and the task allows failures,
`run_task` emits the non-fatal warning and still returns the `Failed` status
to its caller: the outcome is neither converted to a pass nor to an error. -/
theorem run_task_allow_failure_warns_and_returns_failed
    (project : Project) (target : Target) (action : Action) (task : Task)
    (ops : List Operation) (h : project.get_task target.task_id = some task)
    (hfail : get_final_status ops = ActionStatus.failed)
    (hallow : task.options.allow_failure = true) :
    (run_task project target action (Except.ok ops)).ret =
      Except.ok ActionStatus.failed ∧
    RunEvent.warnAllowedFailure task.target ∈
      (run_task project target action (Except.ok ops)).events ∧
    (run_task project target action (Except.ok ops)).action.status =
      ActionStatus.failed := by
  simp [run_task, h, Action.has_failed, hfail, hallow]

/-- Concrete task that allows failures. -/
def exTaskAllow : Task :=
  { target := ⟨"app", "test"⟩, options := { allow_failure := true },
    is_persistent := false }

/-- Concrete project owning `exTaskAllow` under id `"test"`. -/
def exProjectAllow : Project := { tasks := [("test", exTaskAllow)] }

/-- Witness for C4: a failing sequence under an allow-failure task. -/
theorem run_task_allow_failure_warns_and_returns_failed_witness :
    (run_task exProjectAllow ⟨"app", "test"⟩ exAction (Except.ok failSeq)).ret =
      Except.ok ActionStatus.failed ∧
    RunEvent.warnAllowedFailure ⟨"app", "test"⟩ ∈
      (run_task exProjectAllow ⟨"app", "test"⟩ exAction
        (Except.ok failSeq)).events := by
  have h := run_task_allow_failure_warns_and_returns_failed exProjectAllow
    ⟨"app", "test"⟩ exAction exTaskAllow failSeq (by decide) (by decide) rfl
  exact ⟨h.1, h.2.1⟩

/-- **C8.** `run_task` copies `task.options.allow_failure` onto the Action
right after the task lookup, so whether it returns normally or with an error
bubbled up from the operations, the final Action carries the task's configured
value. -/
theorem run_task_copies_allow_failure
    (project : Project) (target : Target) (action : Action) (task : Task)
    (rr : Except Unit (List Operation))
    (h : project.get_task target.task_id = some task) :
    (run_task project target action rr).action.allow_failure =
      task.options.allow_failure := by
  cases rr with
  | error e => rw [run_task_error_action project target action task e h]
  | ok ops => rw [run_task_ok_action project target action task ops h]

/-- Witness for C8: the copy is already visible when the runner errors. -/
theorem run_task_copies_allow_failure_witness :
    (run_task exProjectAllow ⟨"app", "test"⟩ exAction
        (Except.error ())).action.allow_failure = true := by
  exact run_task_copies_allow_failure exProjectAllow ⟨"app", "test"⟩ exAction
    exTaskAllow (Except.error ()) (by decide)

/-- **C10.** `run_task` performs at most one target-state write into the Run
Context, and for a non-persistent task it performs none at all, leaving the
target-state map untouched. -/
theorem run_task_state_write_frame
    (project : Project) (target : Target) (action : Action)
    (rr : Except Unit (List Operation)) :
    ((run_task project target action rr).events.filter
        RunEvent.isStateWrite).length ≤ 1 ∧
    (∀ task, project.get_task target.task_id = some task →
      task.is_persistent = false →
      (run_task project target action rr).events.filter
        RunEvent.isStateWrite = []) := by
  cases hget : project.get_task target.task_id with
  | none =>
      rw [run_task_events_of_unknown project target action rr hget]
      refine ⟨by simp, ?_⟩
      intro task htask
      exact absurd htask (by simp)
  | some task =>
      obtain ⟨w, hw, hev⟩ := run_task_events_eq project target action task rr hget
      have hwfilter : w.filter RunEvent.isStateWrite = [] :=
        List.filter_eq_nil_iff.mpr fun e he => by rw [hw e he]; simp
      rw [hev]
      constructor
      · cases hp : task.is_persistent with
        | false =>
            simp [List.filter_append, List.filter_cons, hwfilter,
              RunEvent.isStateWrite]
        | true =>
            simp [List.filter_append, List.filter_cons, hwfilter,
              RunEvent.isStateWrite]
      · intro task2 htask2 hpers
        injection htask2 with htask2
        subst htask2
        simp [hpers, List.filter_cons, hwfilter, RunEvent.isStateWrite]

/-- Witness for C10: a non-persistent task writes no target state. -/
theorem run_task_state_write_frame_witness :
    (run_task exProject exTarget exAction (Except.ok flakySeq)).events.filter
      RunEvent.isStateWrite = [] := by
  exact (run_task_state_write_frame exProject exTarget exAction
    (Except.ok flakySeq)).2 exTask (by decide) rfl

/-! ## Helper lemmas about the `run` command -/

/-- When every requested target resolves to `None`, the affected-filtering
loop of `run` collects the entire request list. -/
theorem collect_unaffected_all_none
    (resolve : String → Except GraphError (Option Nat)) (l : List String)
    (h : ∀ t ∈ l, resolve t = Except.ok none) :
    collect_unaffected resolve l = Except.ok l := by
  induction l with
  | nil => rfl
  | cons t rest ih =>
      have ht : resolve t = Except.ok none := h t (by simp)
      have hrest := ih fun x hx => h x (by simp [hx])
      simp [collect_unaffected, ht, hrest]

/-- The counting loop of `render_result_stats` adds the number of `Passed`,
`Failed` and `Invalid` entries to the incoming counters. -/
theorem tally_go (l : List TaskResult) (s : ResultStats) :
    l.foldl tallyStep s =
      { pass_count :=
          s.pass_count + l.countP (fun r => r.status == TaskResultStatus.passed)
        fail_count :=
          s.fail_count + l.countP (fun r => r.status == TaskResultStatus.failed)
        invalid_count :=
          s.invalid_count +
            l.countP (fun r => r.status == TaskResultStatus.invalid) } := by
  induction l generalizing s with
  | nil => simp
  | cons r rest ih =>
      rw [List.foldl_cons, ih]
      cases hs : r.status <;>
        simp [tallyStep, hs, List.countP_cons, ResultStats.mk.injEq] <;> omega

/-! ## Claim theorems about the `run` command -/

/-- **C7.** For every requested classification, `get_touched_files` returns
exactly the workspace-root joins of the VCS provider's paths of that
classification: a path is in the answer iff it is the join of some path of the
selected field, so no path of any other classification contributes. -/
theorem get_touched_files_exact (root : String) (status : RunStatus)
    (tf : TouchedFiles) :
    get_touched_files root status (Except.ok tf) =
      Except.ok ((tf.select status).map (joinPath root)) ∧
    ∀ p, p ∈ (tf.select status).map (joinPath root) ↔
      ∃ f ∈ tf.select status, p = joinPath root f := by
  refine ⟨rfl, ?_⟩
  intro p
  constructor
  · intro hp
    obtain ⟨f, hf, he⟩ := List.mem_map.mp hp
    exact ⟨f, hf, he.symm⟩
  · rintro ⟨f, hf, he⟩
    exact List.mem_map.mpr ⟨f, hf, he.symm⟩

/-- Concrete VCS answer with one added file and two files in `all`. -/
def exTouched : TouchedFiles :=
  ⟨["a.ts"], ["a.ts", "b.ts"], [], [], [], [], []⟩

/-- Witness for C7 at a concrete classification and provider answer. -/
theorem get_touched_files_exact_witness :
    get_touched_files "/ws" RunStatus.added (Except.ok exTouched) =
      Except.ok ((exTouched.select RunStatus.added).map (joinPath "/ws")) ∧
    "/ws/a.ts" ∈ (exTouched.select RunStatus.added).map (joinPath "/ws") := by
  refine ⟨(get_touched_files_exact "/ws" RunStatus.added exTouched).1, ?_⟩
  exact ((get_touched_files_exact "/ws" RunStatus.added exTouched).2
    "/ws/a.ts").mpr ⟨"a.ts", by decide, by decide⟩

/-- A results sequence with 2 `Passed`, 1 `Failed` and 1 `Invalid` entry. -/
def exResults : List TaskResult :=
  [⟨TaskResultStatus.passed⟩, ⟨TaskResultStatus.failed⟩,
   ⟨TaskResultStatus.passed⟩, ⟨TaskResultStatus.invalid⟩]

/-- **C6.** Result aggregation counts exactly the `Passed`, `Failed` and
`Invalid` entries of the results sequence; on 2 Passed, 1 Failed and 1 Invalid
it produces the counts 2/1/1 and a non-empty summary line containing all
three counts. -/
theorem render_result_stats_counts (results : List TaskResult) :
    (tally results).pass_count =
      results.countP (fun r => r.status == TaskResultStatus.passed) ∧
    (tally results).fail_count =
      results.countP (fun r => r.status == TaskResultStatus.failed) ∧
    (tally results).invalid_count =
      results.countP (fun r => r.status == TaskResultStatus.invalid) ∧
    tally exResults =
      { pass_count := 2, fail_count := 1, invalid_count := 1 } ∧
    counts_message { pass_count := 2, fail_count := 1, invalid_count := 1 } =
      ["2 completed", "1 failed", "1 invalid"] ∧
    (render_result_stats exResults).2 = "2 completed, 1 failed, 1 invalid" ∧
    (render_result_stats exResults).2 ≠ "" := by
  rw [tally, tally_go results]
  refine ⟨by simp, by simp, by simp, by decide, by decide, rfl, by decide⟩

/-- Witness for C6 at the concrete 2 Passed / 1 Failed / 1 Invalid sequence. -/
theorem render_result_stats_counts_witness :
    tally exResults = { pass_count := 2, fail_count := 1, invalid_count := 1 } :=
  (render_result_stats_counts []).2.2.2.1

/-- **C9.** The aggregated counts ignore results whose status is neither
`Passed` nor `Failed` nor `Invalid` (appending such results changes nothing);
a zero counter contributes no entry to the counts message, so a results
sequence of only `Skipped` entries renders an empty counts line. -/
theorem render_result_stats_invariants :
    (∀ results extra : List TaskResult,
      (∀ r ∈ extra, r.status ≠ TaskResultStatus.passed ∧
        r.status ≠ TaskResultStatus.failed ∧
        r.status ≠ TaskResultStatus.invalid) →
      tally (results ++ extra) = tally results) ∧
    (∀ s : ResultStats, (counts_message s).length =
      (if 0 < s.pass_count then 1 else 0) +
      (if 0 < s.fail_count then 1 else 0) +
      (if 0 < s.invalid_count then 1 else 0)) ∧
    (∀ results : List TaskResult,
      (∀ r ∈ results, r.status = TaskResultStatus.skipped) →
      counts_message (tally results) = [] ∧
      (render_result_stats results).2 = "") := by
  refine ⟨?_, ?_, ?_⟩
  · intro results extra hextra
    rw [tally, tally, tally_go, tally_go]
    have hp : extra.countP (fun r => r.status == TaskResultStatus.passed) = 0 :=
      List.countP_eq_zero.mpr fun r hr => by
        simp [beq_iff_eq]
        exact (hextra r hr).1
    have hf : extra.countP (fun r => r.status == TaskResultStatus.failed) = 0 :=
      List.countP_eq_zero.mpr fun r hr => by
        simp [beq_iff_eq]
        exact (hextra r hr).2.1
    have hi : extra.countP (fun r => r.status == TaskResultStatus.invalid) = 0 :=
      List.countP_eq_zero.mpr fun r hr => by
        simp [beq_iff_eq]
        exact (hextra r hr).2.2
    simp [List.countP_append, hp, hf, hi]
  · intro s
    unfold counts_message
    rcases Nat.eq_zero_or_pos s.pass_count with hp | hp <;>
      rcases Nat.eq_zero_or_pos s.fail_count with hf | hf <;>
        rcases Nat.eq_zero_or_pos s.invalid_count with hi | hi <;>
          simp [hp, hf, hi, Nat.lt_irrefl, Nat.not_lt_of_lt]
  · intro results hres
    have hz : tally results =
        { pass_count := 0, fail_count := 0, invalid_count := 0 } := by
      rw [tally, tally_go]
      have hp : results.countP (fun r => r.status == TaskResultStatus.passed) = 0 :=
        List.countP_eq_zero.mpr fun r hr => by simp [beq_iff_eq, hres r hr]
      have hf : results.countP (fun r => r.status == TaskResultStatus.failed) = 0 :=
        List.countP_eq_zero.mpr fun r hr => by simp [beq_iff_eq, hres r hr]
      have hi : results.countP (fun r => r.status == TaskResultStatus.invalid) = 0 :=
        List.countP_eq_zero.mpr fun r hr => by simp [beq_iff_eq, hres r hr]
      simp [hp, hf, hi]
    rw [render_result_stats, hz]
    exact ⟨rfl, rfl⟩

/-- **C2 (amended).** For every affected-filtered run whose requested targets
are pairwise distinct, if `run_target_if_touched` filters out every requested
target as unaffected then the run completes with an empty result set, the task
runner is never invoked, and the targets reported as not affected are exactly
the full request list. -/
theorem run_all_unaffected_aborts_early
    (targets : List String) (status : RunStatus) (root : String) (env : RunEnv)
    (tf : TouchedFiles) (hnodup : targets.Nodup)
    (hvcs : env.vcs = Except.ok tf)
    (hall : ∀ t ∈ targets,
      env.run_target_if_touched t ((tf.select status).map (joinPath root)) =
        Except.ok none) :
    run targets ⟨true, status⟩ root env =
      { ret := Except.ok [], vcs_consulted := true, runner_invoked := false,
        unaffected := targets } := by
  have hcol := collect_unaffected_all_none
    (fun t => env.run_target_if_touched t ((tf.select status).map (joinPath root)))
    targets hall
  simp [run, get_touched_files, hvcs, hcol, hnodup.dedup]

/-- Environment in which the VCS reports no touched files and the graph
filters every target out as unaffected. -/
def allNoneEnv : RunEnv :=
  { vcs := Except.ok ⟨[], [], [], [], [], [], []⟩
    run_target_if_touched := fun _ _ => Except.ok none
    run_target := fun _ => Except.ok 0
    runner_results := Except.ok [] }

/-- Witness for the amended C2 at a concrete one-target request. -/
theorem run_all_unaffected_aborts_early_witness :
    run ["app:build"] ⟨true, RunStatus.all⟩ "/ws" allNoneEnv =
      { ret := Except.ok [], vcs_consulted := true, runner_invoked := false,
        unaffected := ["app:build"] } := by
  exact run_all_unaffected_aborts_early ["app:build"] RunStatus.all "/ws"
    allNoneEnv ⟨[], [], [], [], [], [], []⟩ (by simp) rfl (fun t _ => rfl)

/-- **C2 counterexample.** Requesting the same target twice defeats the early
abort: every requested target is filtered out as unaffected, yet because the
unaffected `HashSet` collapses the duplicates its cardinality differs from the
request count, so `run` falls through and invokes the task runner. -/
theorem run_duplicate_unaffected_still_invokes_runner :
    (∀ t ∈ (["app:build", "app:build"] : List String), ∀ files,
      allNoneEnv.run_target_if_touched t files = Except.ok none) ∧
    (run ["app:build", "app:build"] ⟨true, RunStatus.all⟩ "/ws"
        allNoneEnv).runner_invoked = true := by
  exact ⟨fun t _ files => rfl, rfl⟩

/-- **C5.** Fatal graph-construction errors and, for affected-filtered runs,
a VCS touched-files failure abort the run before any task executes: the error
is the sole output, no results are produced and the task runner is never
invoked; a run without affected filtering never consults the VCS provider and
can never return the VCS failure. -/
theorem run_fatal_errors_abort
    (targets : List String) (status : RunStatus) (root : String) (env : RunEnv) :
    (env.vcs = Except.error () →
      run targets ⟨true, status⟩ root env =
        { ret := Except.error RunError.vcsFailure, vcs_consulted := true,
          runner_invoked := false, unaffected := [] }) ∧
    (∀ tf e, env.vcs = Except.ok tf →
      collect_unaffected
        (fun t => env.run_target_if_touched t
          ((tf.select status).map (joinPath root))) targets =
        Except.error e →
      run targets ⟨true, status⟩ root env =
        { ret := Except.error (RunError.graph e), vcs_consulted := true,
          runner_invoked := false, unaffected := [] }) ∧
    (∀ e, resolve_all env.run_target targets = Except.error e →
      run targets ⟨false, status⟩ root env =
        { ret := Except.error (RunError.graph e), vcs_consulted := false,
          runner_invoked := false, unaffected := [] }) ∧
    ((run targets ⟨false, status⟩ root env).vcs_consulted = false ∧
      (run targets ⟨false, status⟩ root env).ret ≠
        Except.error RunError.vcsFailure) := by
  refine ⟨?_, ?_, ?_, ?_⟩
  · intro hvcs
    simp [run, get_touched_files, hvcs]
  · intro tf e hvcs hcol
    simp [run, get_touched_files, hvcs, hcol]
  · intro e hres
    simp [run, hres]
  · cases hres : resolve_all env.run_target targets with
    | error e => simp [run, hres]
    | ok u =>
        cases hrr : env.runner_results with
        | error e2 => simp [run, hres, hrr]
        | ok results => simp [run, hres, hrr]

/-- Environment whose VCS provider fails. -/
def vcsFailEnv : RunEnv :=
  { vcs := Except.error ()
    run_target_if_touched := fun _ _ => Except.ok (some 0)
    run_target := fun _ => Except.ok 0
    runner_results := Except.ok [] }

/-- Witness for C5: a concrete affected run with a failing VCS provider, and
a concrete unfiltered run that never consults the VCS. -/
theorem run_fatal_errors_abort_witness :
    run ["app:build"] ⟨true, RunStatus.all⟩ "/ws" vcsFailEnv =
      { ret := Except.error RunError.vcsFailure, vcs_consulted := true,
        runner_invoked := false, unaffected := [] } ∧
    (run ["app:build"] ⟨false, RunStatus.all⟩ "/ws" vcsFailEnv).vcs_consulted =
      false := by
  exact ⟨(run_fatal_errors_abort ["app:build"] RunStatus.all "/ws" vcsFailEnv).1
      rfl,
    (run_fatal_errors_abort ["app:build"] RunStatus.all "/ws" vcsFailEnv).2.2.2.1⟩

/-- Witness for C9: one skipped result leaves the counts line empty. -/
theorem render_result_stats_invariants_witness :
    counts_message (tally [⟨TaskResultStatus.skipped⟩]) = [] ∧
    (render_result_stats [⟨TaskResultStatus.skipped⟩]).2 = "" := by
  exact render_result_stats_invariants.2.2 [⟨TaskResultStatus.skipped⟩]
    (by simp)

end Moon
